import Mathlib

/-!
Verification of the buzzard raster library (files `_datasource.py`,
`_gdal_file_raster.py`) against its natural-language specification.

The embedding is shallow: Python functions from the source become Lean
functions over explicit state.  Code of the repository that is referenced
from the two source files but lives in modules outside of them
(`Footprint`, `_tools.is_tiling_covering_fp`, the remapper, the
activation pool) is modelled from the specification; each such
definition carries a doc comment starting with `Modelled from the spec:`.

Conventions of the model:
* machine floats of world coordinates are restricted to integers, and
  footprints to axis-aligned grids (the spec's non-goals exclude warping;
  only shift/scale on the pixel grid is exercised by the claims);
* numpy arrays are shape-annotated total functions `Nat → Nat → Nat → Int`
  indexed `(row, col, band-slot)`;
* a numpy dtype is an integer interval with saturating cast (the spec
  fixes saturation semantics for integer dtypes).
-/

set_option autoImplicit false

/-- Error kinds of the library surface (spec §7). -/
inductive BuzzError where
  | Closed
  | BadSrMode
  | BadTiling
  | TooMany
  deriving DecidableEq, Repr

/-- Modelled from the spec: `Footprint` (`buzzard._footprint` is not under
`src/`).  An axis-aligned raster geometry: world origin `(ox, oy)` of the
top-left corner, pixel sizes `(px, py)` (positive in every use site), and
raster size `(rx, ry)` in pixels.  World `y` grows downward in this model. -/
@[ext]
structure Footprint where
  ox : Int
  oy : Int
  px : Int
  py : Int
  rx : Nat
  ry : Nat
  deriving DecidableEq, Repr

/-- World coordinate of the right edge. -/
def Footprint.xr (fp : Footprint) : Int := fp.ox + fp.rx * fp.px

/-- World coordinate of the bottom edge. -/
def Footprint.yb (fp : Footprint) : Int := fp.oy + fp.ry * fp.py

/-- Modelled from the spec: two footprints share a grid iff their pixel
vectors are equal and their origin offsets are an integer combination of
the pixel vectors (spec §3). -/
def Footprint.same_grid (a b : Footprint) : Bool :=
  a.px == b.px && a.py == b.py &&
  (a.ox - b.ox) % a.px == 0 && (a.oy - b.oy) % a.py == 0

/-- Modelled from the spec: `share_area` — polygon overlap > 0 (spec §4.1). -/
def Footprint.share_area (a b : Footprint) : Bool :=
  a.ox < b.xr && b.ox < a.xr && a.oy < b.yb && b.oy < a.yb

/-- Modelled from the spec: `intersection` — requires `same_grid`; origin is
the max of the two origins, size is the pixel-count overlap (spec §4.1). -/
def Footprint.intersection (a b : Footprint) : Footprint :=
  { ox := max a.ox b.ox
    oy := max a.oy b.oy
    px := a.px
    py := a.py
    rx := ((min a.xr b.xr - max a.ox b.ox) / a.px).toNat
    ry := ((min a.yb b.yb - max a.oy b.oy) / a.py).toNat }

/-- Modelled from the spec: `spatial_to_raster` — inverse affine, integer
on grid nodes (spec §4.1). -/
def Footprint.spatial_to_raster (fp : Footprint) (ptx pty : Int) : Int × Int :=
  ((ptx - fp.ox) / fp.px, (pty - fp.oy) / fp.py)

/-- Region containment `t ⊆ fp` of the world rectangles. -/
def Footprint.within (t fp : Footprint) : Bool :=
  fp.ox ≤ t.ox && t.xr ≤ fp.xr && fp.oy ≤ t.oy && t.yb ≤ fp.yb

/-- Whether pixel `(col i, row j)` of `fp` lies inside tile `t`
(well-behaved when `t` and `fp` share a grid). -/
def Footprint.containsPixelOf (t fp : Footprint) (i j : Nat) : Bool :=
  t.ox ≤ fp.ox + i * fp.px && fp.ox + (i + 1) * fp.px ≤ t.xr &&
  t.oy ≤ fp.oy + j * fp.py && fp.oy + (j + 1) * fp.py ≤ t.yb

/-- Interpolation kernels named by the spec (§4.7). -/
inductive Interpolation where
  | nearest
  | bilinear
  | cubic
  deriving DecidableEq, Repr

/-- Kernel radius in source pixels: nearest rounds to one pixel, bilinear
uses a 2×2 neighborhood, cubic a 4×4 one (spec §4.7). -/
def Interpolation.radius : Interpolation → Nat
  | .nearest => 0
  | .bilinear => 1
  | .cubic => 2

/-- Modelled from the spec: `build_sampling_footprint(dst_fp, interpolation)`
of the abstract raster back (not under `src/`) — the smallest source-grid
footprint whose pixel neighbors cover every destination pixel's
interpolation kernel, clipped to the source raster; `none` when `dst`
does not intersect the source (spec §4.1). -/
def Footprint.build_sampling_footprint (src dst : Footprint) (interp : Interpolation) :
    Option Footprint :=
  if src.share_area dst then
    let r : Int := interp.radius
    let i0 := max ((dst.ox - src.ox) / src.px - r) 0
    let i1 := min ((dst.xr - src.ox + src.px - 1) / src.px + r) (src.rx : Int)
    let j0 := max ((dst.oy - src.oy) / src.py - r) 0
    let j1 := min ((dst.yb - src.oy + src.py - 1) / src.py + r) (src.ry : Int)
    some { ox := src.ox + i0 * src.px
           oy := src.oy + j0 * src.py
           px := src.px
           py := src.py
           rx := (i1 - i0).toNat
           ry := (j1 - j0).toNat }
  else none

/-- A numpy array: a shape `(ry, rx, nb)` and its cells. -/
structure NpArray where
  ry : Nat
  rx : Nat
  nb : Nat
  data : Nat → Nat → Nat → Int

/-- Exact numpy equality: same shape and same cells at every in-range index. -/
def NpArray.ArrEq (a b : NpArray) : Prop :=
  a.ry = b.ry ∧ a.rx = b.rx ∧ a.nb = b.nb ∧
  ∀ y < a.ry, ∀ x < a.rx, ∀ k < a.nb, a.data y x k = b.data y x k

instance : DecidablePred fun p : NpArray × NpArray => p.1.ArrEq p.2 := fun _ => by
  unfold NpArray.ArrEq; infer_instance

/-- An integer dtype: the interval of representable values. -/
structure Dtype where
  lo : Int
  hi : Int
  deriving DecidableEq, Repr

/-- Saturating cast into the dtype (spec §4.7: integer dtypes are cast
back with saturation to the dtype range). -/
def Dtype.cast (d : Dtype) (v : Int) : Int := max d.lo (min d.hi v)

/-- `array.astype(dtype)`. -/
def NpArray.astype (a : NpArray) (d : Dtype) : NpArray :=
  { a with data := fun y x k => d.cast (a.data y x k) }

/-- Every in-range cell is representable in `d`. -/
def NpArray.hasDtype (a : NpArray) (d : Dtype) : Prop :=
  ∀ y < a.ry, ∀ x < a.rx, ∀ k < a.nb, d.lo ≤ a.data y x k ∧ a.data y x k ≤ d.hi

instance (a : NpArray) (d : Dtype) : Decidable (a.hasDtype d) := by
  unfold NpArray.hasDtype; infer_instance

/-- `np.full(shape, v, dtype)` — numpy casts the fill value into the dtype. -/
def npFull (ry rx nb : Nat) (v : Int) (d : Dtype) : NpArray :=
  ⟨ry, rx, nb, fun _ _ _ => d.cast v⟩

/-- Modelled from the spec: the remapper (§4.7), array part.  On a shared
grid it is a pure slice/copy, destination pixels outside the source get
`dst_nodata`.  Otherwise the nearest-neighbour kernel is modelled: each
destination pixel center is projected into source pixel space and rounded
down (`⌊·⌋` of the center, exact on the integer world grid); a source
pixel equal to `src_nodata` erodes to `dst_nodata`; the bilinear/cubic
kernels only enter the model through `Interpolation.radius`. -/
def remap (srcFp dstFp : Footprint) (array : NpArray)
    (src_nodata : Option Int) (dst_nodata : Int) (interp : Interpolation) : NpArray :=
  if srcFp.same_grid dstFp then
    let dx := (dstFp.ox - srcFp.ox) / srcFp.px
    let dy := (dstFp.oy - srcFp.oy) / srcFp.py
    { ry := dstFp.ry, rx := dstFp.rx, nb := array.nb
      data := fun y x k =>
        let sy := (y : Int) + dy
        let sx := (x : Int) + dx
        if 0 ≤ sy ∧ sy < (srcFp.ry : Int) ∧ 0 ≤ sx ∧ sx < (srcFp.rx : Int) then
          array.data sy.toNat sx.toNat k
        else dst_nodata }
  else
    { ry := dstFp.ry, rx := dstFp.rx, nb := array.nb
      data := fun y x k =>
        let sx := (2 * (dstFp.ox - srcFp.ox) + (2 * x + 1) * dstFp.px) / (2 * srcFp.px)
        let sy := (2 * (dstFp.oy - srcFp.oy) + (2 * y + 1) * dstFp.py) / (2 * srcFp.py)
        if 0 ≤ sy ∧ sy < (srcFp.ry : Int) ∧ 0 ≤ sx ∧ sx < (srcFp.rx : Int) then
          let v := array.data sy.toNat sx.toNat k
          if src_nodata = some v then dst_nodata else v
        else dst_nodata }

/-- Modelled from the spec: the remapper (§4.7), mask part — the validity
mask follows the array through the same geometry; destination pixels
outside the source are invalid. -/
def remapMask (srcFp dstFp : Footprint) (m : Nat → Nat → Bool) : Nat → Nat → Bool :=
  if srcFp.same_grid dstFp then
    fun y x =>
      let sy := (y : Int) + (dstFp.oy - srcFp.oy) / srcFp.py
      let sx := (x : Int) + (dstFp.ox - srcFp.ox) / srcFp.px
      if 0 ≤ sy ∧ sy < (srcFp.ry : Int) ∧ 0 ≤ sx ∧ sx < (srcFp.rx : Int) then
        m sy.toNat sx.toNat
      else false
  else
    fun y x =>
      let sx := (2 * (dstFp.ox - srcFp.ox) + (2 * x + 1) * dstFp.px) / (2 * srcFp.px)
      let sy := (2 * (dstFp.oy - srcFp.oy) + (2 * y + 1) * dstFp.py) / (2 * srcFp.py)
      if 0 ≤ sy ∧ sy < (srcFp.ry : Int) ∧ 0 ≤ sx ∧ sx < (srcFp.rx : Int) then
        m sy.toNat sx.toNat
      else false

/-- The state of one file raster: its footprint (in working coordinates),
dtype, band count, nodata value of the first band, and the stored cells,
indexed `(row, col, band id)` with 1-based gdal band ids. -/
structure RasterState where
  fp : Footprint
  dtype : Dtype
  band_count : Nat
  nodata : Option Int
  cells : Nat → Nat → Nat → Int

/-- Index of the last occurrence of `b` in `l` (the gdal write loop writes
bands in order, so for a repeated band id the last slice wins). -/
def lastOcc : List Nat → Nat → Option Nat
  | [], _ => none
  | a :: t, b =>
    match lastOcc t b with
    | some i => some (i + 1)
    | none => if a = b then some 0 else none

/-- `BackGDALFileRaster._sample` / `get_data_driver`: read the requested
window (on the raster's own grid, within bounds) band by band. -/
def BackGDALFileRaster.sample (R : RasterState) (fp : Footprint) (band_ids : List Nat) :
    NpArray :=
  let rtl := R.fp.spatial_to_raster fp.ox fp.oy
  { ry := fp.ry, rx := fp.rx, nb := band_ids.length
    data := fun y x i => R.cells (rtl.2.toNat + y) (rtl.1.toNat + x) (band_ids.getD i 0) }

/-- `BackGDALFileRaster.get_data` (`_gdal_file_raster.py:77-97`): derive the
sampling footprint; if there is none, return an array full of `dst_nodata`;
otherwise sample, remap to the requested footprint and cast back to the
raster's dtype. -/
def BackGDALFileRaster.get_data (R : RasterState) (fp : Footprint) (band_ids : List Nat)
    (dst_nodata : Int) (interp : Interpolation) : NpArray :=
  match Footprint.build_sampling_footprint R.fp fp interp with
  | none => npFull fp.ry fp.rx band_ids.length dst_nodata R.dtype
  | some samplefp =>
    let array := BackGDALFileRaster.sample R samplefp band_ids
    let array := remap samplefp fp array R.nodata dst_nodata interp
    array.astype R.dtype

/-- `BackGDALFileRaster.set_data` (`_gdal_file_raster.py:99-146`): early
return when the footprint shares no area with the raster (the returned
`Bool` records whether the driver object was acquired); otherwise default
the mask when resampling is needed, remap onto the intersection, cast to
the raster's dtype and write the masked cells band by band. -/
def BackGDALFileRaster.set_data (R : RasterState) (array : NpArray) (fp : Footprint)
    (band_ids : List Nat) (interp : Interpolation) (mask : Option (Nat → Nat → Bool)) :
    RasterState × Bool :=
  if fp.share_area R.fp then
    let mask : Option (Nat → Nat → Bool) :=
      match mask, fp.same_grid R.fp with
      | none, false => some fun _ _ => true
      | m, _ => m
    let dstfp := R.fp.intersection fp
    let arr := remap fp dstfp array R.nodata (R.nodata.getD 0) interp
    let arr := arr.astype R.dtype
    let wmask : Nat → Nat → Bool :=
      match mask with
      | none => fun _ _ => true
      | some m => remapMask fp dstfp m
    let tl := R.fp.spatial_to_raster dstfp.ox dstfp.oy
    ({ R with
        cells := fun r c b =>
          match lastOcc band_ids b with
          | none => R.cells r c b
          | some i =>
            if tl.2 ≤ (r : Int) ∧ (r : Int) < tl.2 + dstfp.ry ∧
               tl.1 ≤ (c : Int) ∧ (c : Int) < tl.1 + dstfp.rx ∧
               wmask ((r : Int) - tl.2).toNat ((c : Int) - tl.1).toNat then
              arr.data ((r : Int) - tl.2).toNat ((c : Int) - tl.1).toNat i
            else R.cells r c b }, true)
  else (R, false)

/-- The registry-level state of a `DataSource`: closed flag, scheduler,
pools, and the open flags of its registered sources. -/
structure DataSourceState where
  closed : Bool
  scheduler_running : Bool
  pools_joined : Bool
  sources_open : List Bool
  deriving DecidableEq, Repr

/-- The observable steps of `DataSource.close`. -/
inductive CloseEvent where
  | stopScheduler
  | joinPools
  | closeSource
  deriving DecidableEq, Repr

/-- `DataSource.close` (`_datasource.py:1194-1246`): accessing the `close`
property raises when the DataSource is already closed; the close routine
stops the scheduler, joins the pools and closes every registered source,
in that order.  The event list records the order of the steps. -/
def DataSource.close (ds : DataSourceState) :
    Except BuzzError (DataSourceState × List CloseEvent) :=
  if ds.closed then .error .Closed
  else
    .ok ({ closed := true
           scheduler_running := false
           pools_joined := true
           sources_open := ds.sources_open.map fun _ => false },
         .stopScheduler :: .joinPools :: ds.sources_open.map fun _ => .closeSource)

/-- Modelled from the spec: the registration entry point of the registry
mixin (`DataSourceRegisterMixin`, not under `src/`) — "After close, every
subsequent operation fails with `Closed`" (spec §4.2). -/
def DataSource.register (ds : DataSourceState) : Except BuzzError DataSourceState :=
  if ds.closed then .error .Closed
  else .ok { ds with sources_open := ds.sources_open ++ [true] }

/-- `DataSource.__init__` (`_datasource.py:252-264`): the legality check of
the `(sr_work, sr_fallback, sr_forced)` presence triple. -/
def DataSource.srMode (sr_work sr_fallback sr_forced : Bool) : Except BuzzError Unit :=
  match sr_work, sr_fallback, sr_forced with
  | false, false, false => .ok ()
  | true, false, false => .ok ()
  | true, true, false => .ok ()
  | true, false, true => .ok ()
  | _, _, _ => .error .BadSrMode

/-- `DataSource.create_raster_recipe` (`_datasource.py:883-972`): the body
of the non-cached variant is `pass` — it returns `None` and registers
nothing. -/
def DataSource.create_raster_recipe (ds : DataSourceState) (fp : Footprint)
    (dtype : Dtype) (band_count : Nat) : DataSourceState × Option Unit :=
  (ds, none)

/-- The `cache_tiles` / `computation_tiles` parameter: an explicit object
array of footprints, or a tile shape. -/
inductive TilingParam where
  | arr (tiles : List Footprint)
  | shape (w h : Nat)

/-- Modelled from the spec: `Footprint.tile(shape, 0, 0, 'shrink')` — a
row-major grid of sub-footprints, the last row/column clipped (spec §4.1). -/
def Footprint.tile (fp : Footprint) (w h : Nat) : List Footprint :=
  (List.range ((fp.ry + h - 1) / h)).flatMap fun ty =>
    (List.range ((fp.rx + w - 1) / w)).map fun tx =>
      { ox := fp.ox + (tx * w : Nat) * fp.px
        oy := fp.oy + (ty * h : Nat) * fp.py
        px := fp.px
        py := fp.py
        rx := min w (fp.rx - tx * w)
        ry := min h (fp.ry - ty * h) }

/-- Modelled from the spec: `_tools.is_tiling_covering_fp` (not under
`src/`) — the tiles lie on the raster's grid and every pixel of `fp` is
covered; unless `allow_outer_pixels`, tiles may not exceed `fp`; unless
`allow_overlapping_pixels`, no pixel is covered twice (spec §4.5). -/
def is_tiling_covering_fp (tiles : List Footprint) (fp : Footprint)
    (allow_outer_pixels allow_overlapping_pixels : Bool) : Bool :=
  tiles.all (fun t => t.same_grid fp) &&
  (allow_outer_pixels || tiles.all (fun t => t.within fp)) &&
  (List.range fp.ry).all fun j =>
    (List.range fp.rx).all fun i =>
      tiles.any (fun t => t.containsPixelOf fp i j) &&
      (allow_overlapping_pixels ||
        decide (tiles.countP (fun t => t.containsPixelOf fp i j) ≤ 1))

/-- The spec-side notion the strict check is compared with: an exact cover
of `fp` without overlapping pixels, by tiles on `fp`'s grid inside `fp`. -/
def ExactCover (tiles : List Footprint) (fp : Footprint) : Prop :=
  (∀ t ∈ tiles, t.same_grid fp = true ∧ t.within fp = true) ∧
  ∀ j < fp.ry, ∀ i < fp.rx, tiles.countP (fun t => t.containsPixelOf fp i j) = 1

/-- The `cache_tiles` arm of `DataSource.create_cached_raster_recipe`
(`_datasource.py:1119-1130`): an explicit object array must pass the
strict covering check, else `BadTiling`; a tile shape is handed to
`fp.tile(..., 'shrink')`. -/
def DataSource.cacheTilesOf (fp : Footprint) (p : TilingParam) :
    Except BuzzError (List Footprint) :=
  match p with
  | .arr tiles =>
    if is_tiling_covering_fp tiles fp false false then .ok tiles
    else .error .BadTiling
  | .shape w h => .ok (fp.tile w h)

/-- The tiling section of `DataSource.create_cached_raster_recipe`
(`_datasource.py:1119-1142`), returning `(cache_tiles, computation_tiles)`.
Note: as in the source, the check in the explicit `computation_tiles`
branch is applied to the `cache_tiles` value. -/
def DataSource.recipeTilings (fp : Footprint) (cache_tiles : TilingParam)
    (computation_tiles : Option TilingParam) :
    Except BuzzError (List Footprint × List Footprint) :=
  (DataSource.cacheTilesOf fp cache_tiles).bind fun ct =>
    match computation_tiles with
    | none => .ok (ct, ct)
    | some (.arr tiles) =>
      if is_tiling_covering_fp ct fp true true then .ok (ct, tiles)
      else .error .BadTiling
    | some (.shape w h) => .ok (ct, fp.tile w h)

/-- Number of inactive entries of an activation flag list. -/
def countFalse (l : List Bool) : Nat := l.countP fun b => !b

/-- The cycling loop of `DataSource.activate_all`
(`_datasource.py:1297-1307`): starting at `pos` with `i` consecutive
already-active sources seen, visit sources cyclically; an inactive source
is activated (resetting the counter to 1), an active one bumps the
counter; stop once `i` reaches the source count.  Modelled from the spec
for the activation itself: `prox.activate()` sets the active flag (the
pool cannot evict here because the caller checked `total ≤ max_active`).
The fuel argument only bounds the recursion; `activate_all` passes enough
fuel for the loop to reach its exit condition. -/
def DataSource.activateLoop (fuel : Nat) (flags : List Bool) (pos i : Nat) : List Bool :=
  match fuel with
  | 0 => flags
  | fuel + 1 =>
    if i = flags.length then flags
    else if flags.getD (pos % flags.length) true then
      DataSource.activateLoop fuel flags ((pos + 1) % flags.length) (i + 1)
    else
      DataSource.activateLoop fuel (flags.set (pos % flags.length) true)
        ((pos + 1) % flags.length) 1

/-- `DataSource.activate_all` (`_datasource.py:1281-1307`): `flags` are the
active flags of the registered pooled sources; fails with `TooMany` when
they outnumber `max_active`, otherwise runs the cycling activation loop. -/
def DataSource.activate_all (max_active : Nat) (flags : List Bool) :
    Except BuzzError (List Bool) :=
  if max_active < flags.length then .error .TooMany
  else .ok (DataSource.activateLoop ((flags.length + 1) * (flags.length + 1)) flags 0 0)

deriving instance DecidableEq for Except

/-- Concrete 2×2 footprint at the world origin with unit pixels. -/
def fpW : Footprint := ⟨0, 0, 1, 1, 2, 2⟩

/-- Concrete file raster on `fpW`: one uint8-like band, no nodata, zeroed. -/
def rasterW : RasterState := ⟨fpW, ⟨0, 255⟩, 1, none, fun _ _ _ => 0⟩

/-- Concrete 2×2×1 array of distinct in-range values. -/
def arrW : NpArray := ⟨2, 2, 1, fun y x _ => (y : Int) * 2 + (x : Int) + 3⟩

/-- Concrete fresh DataSource state with two registered sources. -/
def dsW : DataSourceState := ⟨false, true, false, [true, true]⟩

/-- Concrete footprint disjoint from `fpW`. -/
def fpFar : Footprint := ⟨10, 10, 1, 1, 2, 2⟩

/-- Concrete 1×1 sub-footprint of `fpW` at world `(1, 1)`. -/
def fpSub : Footprint := ⟨1, 1, 1, 1, 1, 1⟩

/-- Concrete 1×1×1 array matching `fpSub`. -/
def arrSub : NpArray := ⟨1, 1, 1, fun _ _ _ => 42⟩

/-- Concrete left 1×2 tile of `fpW`. -/
def tileL : Footprint := ⟨0, 0, 1, 1, 1, 2⟩

/-- Concrete right 1×2 tile of `fpW`. -/
def tileR : Footprint := ⟨1, 0, 1, 1, 1, 2⟩

/-! ## Theorems -/

theorem build_sampling_footprint_none (src dst : Footprint) (interp : Interpolation)
    (h : src.share_area dst = false) :
    Footprint.build_sampling_footprint src dst interp = none := by
  unfold Footprint.build_sampling_footprint
  rw [if_neg]
  simp [h]

/-- C2: a `get_data` whose requested footprint does not intersect the
raster's footprint returns an array of shape `(fp.ry, fp.rx, #bands)`, of
the raster's dtype, entirely filled with `dst_nodata`. -/
theorem get_data_outside_filled_with_dst_nodata (R : RasterState) (fp : Footprint)
    (band_ids : List Nat) (dst_nodata : Int) (interp : Interpolation)
    (hshare : R.fp.share_area fp = false)
    (hlo : R.dtype.lo ≤ dst_nodata) (hhi : dst_nodata ≤ R.dtype.hi) :
    (BackGDALFileRaster.get_data R fp band_ids dst_nodata interp).ry = fp.ry ∧
    (BackGDALFileRaster.get_data R fp band_ids dst_nodata interp).rx = fp.rx ∧
    (BackGDALFileRaster.get_data R fp band_ids dst_nodata interp).nb = band_ids.length ∧
    (BackGDALFileRaster.get_data R fp band_ids dst_nodata interp).hasDtype R.dtype ∧
    ∀ y < fp.ry, ∀ x < fp.rx, ∀ k < band_ids.length,
      (BackGDALFileRaster.get_data R fp band_ids dst_nodata interp).data y x k = dst_nodata := by
  have hb := build_sampling_footprint_none R.fp fp interp hshare
  have hcast : R.dtype.cast dst_nodata = dst_nodata := by
    unfold Dtype.cast; omega
  refine ⟨?_, ?_, ?_, ?_, ?_⟩ <;>
    simp only [BackGDALFileRaster.get_data, hb, npFull, NpArray.hasDtype]
  · intro _ _ _ _ _ _
    rw [hcast]
    exact ⟨hlo, hhi⟩
  · intro _ _ _ _ _ _
    exact hcast

/-- C2 witness. -/
theorem get_data_outside_filled_with_dst_nodata_witness :
    (rasterW.fp.share_area fpFar = false ∧ rasterW.dtype.lo ≤ 9 ∧ (9 : Int) ≤ rasterW.dtype.hi) ∧
    ((BackGDALFileRaster.get_data rasterW fpFar [1] 9 .nearest).ry = fpFar.ry ∧
     (BackGDALFileRaster.get_data rasterW fpFar [1] 9 .nearest).rx = fpFar.rx ∧
     (BackGDALFileRaster.get_data rasterW fpFar [1] 9 .nearest).nb = [1].length ∧
     (BackGDALFileRaster.get_data rasterW fpFar [1] 9 .nearest).hasDtype rasterW.dtype ∧
     ∀ y < fpFar.ry, ∀ x < fpFar.rx, ∀ k < [1].length,
       (BackGDALFileRaster.get_data rasterW fpFar [1] 9 .nearest).data y x k = 9) :=
  ⟨⟨by decide, by decide, by decide⟩,
   get_data_outside_filled_with_dst_nodata rasterW fpFar [1] 9 .nearest
     (by decide) (by decide) (by decide)⟩

/-- C9: a `set_data` whose footprint shares no area with the raster's
footprint returns before acquiring the driver (the `Bool` component) and
leaves the raster state unchanged. -/
theorem set_data_outside_is_noop (R : RasterState) (array : NpArray) (fp : Footprint)
    (band_ids : List Nat) (interp : Interpolation) (mask : Option (Nat → Nat → Bool))
    (hshare : fp.share_area R.fp = false) :
    BackGDALFileRaster.set_data R array fp band_ids interp mask = (R, false) := by
  unfold BackGDALFileRaster.set_data
  rw [if_neg]
  simp [hshare]

/-- C9 witness. -/
theorem set_data_outside_is_noop_witness :
    (fpFar.share_area rasterW.fp = false) ∧
    BackGDALFileRaster.set_data rasterW arrW fpFar [1] .nearest none = (rasterW, false) :=
  ⟨by decide, set_data_outside_is_noop rasterW arrW fpFar [1] .nearest none (by decide)⟩

/-- C3 counterexample: on a concrete freshly opened DataSource, the first
`close()` succeeds but the second one fails (the `close` property raises
"DataSource already closed"), contradicting the claim that the second
call succeeds as well. -/
theorem close_twice_fails_concrete :
    DataSource.close dsW ≠ .error BuzzError.Closed ∧
    (DataSource.close dsW).bind (fun r => DataSource.close r.1) = .error BuzzError.Closed := by
  decide

/-- C3 (amended): on a non-closed DataSource the first `close()` succeeds,
stopping the scheduler, then joining the pools, then closing every
registered source; a second `close()` on the result fails with `Closed`,
as does every subsequent non-close operation. -/
theorem close_once_then_closed (ds : DataSourceState) (h : ds.closed = false) :
    DataSource.close ds =
      .ok ({ closed := true
             scheduler_running := false
             pools_joined := true
             sources_open := ds.sources_open.map fun _ => false },
           .stopScheduler :: .joinPools :: ds.sources_open.map fun _ => .closeSource) ∧
    (DataSource.close ds).bind (fun r => DataSource.close r.1) = .error BuzzError.Closed ∧
    (DataSource.close ds).bind (fun r => DataSource.register r.1) = .error BuzzError.Closed := by
  unfold DataSource.close DataSource.register
  simp [h, Except.bind]

/-- C3 witness. -/
theorem close_once_then_closed_witness :
    (dsW.closed = false) ∧
    (DataSource.close dsW =
      .ok ({ closed := true
             scheduler_running := false
             pools_joined := true
             sources_open := dsW.sources_open.map fun _ => false },
           .stopScheduler :: .joinPools :: dsW.sources_open.map fun _ => .closeSource) ∧
    (DataSource.close dsW).bind (fun r => DataSource.close r.1) = .error BuzzError.Closed ∧
    (DataSource.close dsW).bind (fun r => DataSource.register r.1) = .error BuzzError.Closed) :=
  ⟨rfl, close_once_then_closed dsW rfl⟩

/-- C4: DataSource construction accepts exactly the four legal presence
combinations of `(sr_work, sr_fallback, sr_forced)` and fails with
`BadSrMode` on every other combination. -/
theorem srMode_legal_combinations :
    ∀ w f o : Bool,
      (DataSource.srMode w f o = .ok () ↔
        (w, f, o) = (false, false, false) ∨ (w, f, o) = (true, false, false) ∨
        (w, f, o) = (true, true, false) ∨ (w, f, o) = (true, false, true)) ∧
      (DataSource.srMode w f o = .error BuzzError.BadSrMode ↔
        ¬ ((w, f, o) = (false, false, false) ∨ (w, f, o) = (true, false, false) ∨
           (w, f, o) = (true, true, false) ∨ (w, f, o) = (true, false, true))) := by
  decide

/-- C7: the non-cached `create_raster_recipe` has an empty body: it
returns `None` and registers nothing. -/
theorem create_raster_recipe_is_noop (ds : DataSourceState) (fp : Footprint)
    (dtype : Dtype) (band_count : Nat) :
    DataSource.create_raster_recipe ds fp dtype band_count = (ds, none) := rfl

theorem is_tiling_strict_iff_exact_cover (tiles : List Footprint) (fp : Footprint) :
    is_tiling_covering_fp tiles fp false false = true ↔ ExactCover tiles fp := by
  unfold is_tiling_covering_fp ExactCover
  simp only [Bool.false_or, Bool.and_eq_true, List.all_eq_true, List.any_eq_true,
    decide_eq_true_eq, List.mem_range]
  constructor
  · rintro ⟨⟨hgrid, hwithin⟩, hpix⟩
    refine ⟨fun t ht => ⟨hgrid t ht, hwithin t ht⟩, fun j hj i hi => ?_⟩
    obtain ⟨hany, hle⟩ := hpix j hj i hi
    have hpos := List.countP_pos_iff.2 hany
    omega
  · rintro ⟨h1, h2⟩
    refine ⟨⟨fun t ht => (h1 t ht).1, fun t ht => (h1 t ht).2⟩, fun j hj i hi => ?_⟩
    have := h2 j hj i hi
    exact ⟨List.countP_pos_iff.1 (by omega), by omega⟩

/-- C5: with an explicit `cache_tiles` array, construction succeeds iff the
array exactly covers the recipe's footprint without overlapping pixels and
fails with `BadTiling` otherwise; with a tile shape, the tiling is derived
by `fp.tile(shape, 0, 0, 'shrink')`. -/
theorem cache_tiles_validation (fp : Footprint) (tiles : List Footprint) (w h : Nat) :
    (DataSource.cacheTilesOf fp (.arr tiles) = .ok tiles ↔ ExactCover tiles fp) ∧
    (DataSource.cacheTilesOf fp (.arr tiles) = .error BuzzError.BadTiling ↔
      ¬ ExactCover tiles fp) ∧
    DataSource.cacheTilesOf fp (.shape w h) = .ok (fp.tile w h) := by
  unfold DataSource.cacheTilesOf
  by_cases hc : is_tiling_covering_fp tiles fp false false = true
  · rw [← is_tiling_strict_iff_exact_cover]
    simp [hc]
  · rw [← is_tiling_strict_iff_exact_cover]
    simp only [Bool.not_eq_true] at hc
    simp [hc]

theorem is_tiling_lax_of_strict (tiles : List Footprint) (fp : Footprint)
    (h : is_tiling_covering_fp tiles fp false false = true) :
    is_tiling_covering_fp tiles fp true true = true := by
  unfold is_tiling_covering_fp at h ⊢
  simp only [Bool.false_or, Bool.true_or, Bool.and_true, Bool.and_eq_true,
    List.all_eq_true, List.any_eq_true, decide_eq_true_eq, List.mem_range] at h ⊢
  obtain ⟨⟨hgrid, _⟩, hpix⟩ := h
  exact ⟨hgrid, fun j hj i hi => (hpix j hj i hi).1⟩

/-- C8: when `cache_tiles` is a valid exact-cover array, an explicit
`computation_tiles` array is always accepted — the covering check of that
branch is applied to `cache_tiles`, so even a `computation_tiles` array
that covers nothing passes. -/
theorem computation_tiles_branch_checks_cache_tiles (fp : Footprint)
    (ct comp : List Footprint)
    (hct : is_tiling_covering_fp ct fp false false = true) :
    DataSource.recipeTilings fp (.arr ct) (some (.arr comp)) = .ok (ct, comp) := by
  unfold DataSource.recipeTilings DataSource.cacheTilesOf
  simp [hct, is_tiling_lax_of_strict ct fp hct, Except.bind]

theorem same_grid_elim (F S : Footprint) (h : F.same_grid S = true) :
    F.px = S.px ∧ F.py = S.py ∧
    (∃ kx : Int, F.ox = S.ox + kx * S.px) ∧ (∃ ky : Int, F.oy = S.oy + ky * S.py) := by
  unfold Footprint.same_grid at h
  simp only [Bool.and_eq_true, beq_iff_eq] at h
  obtain ⟨⟨⟨hpx, hpy⟩, hmx⟩, hmy⟩ := h
  refine ⟨hpx, hpy, ?_, ?_⟩
  · obtain ⟨c, hc⟩ := Int.dvd_of_emod_eq_zero hmx
    exact ⟨c, by rw [← hpx]; linarith [hc, mul_comm F.px c]⟩
  · obtain ⟨c, hc⟩ := Int.dvd_of_emod_eq_zero hmy
    exact ⟨c, by rw [← hpy]; linarith [hc, mul_comm F.py c]⟩

theorem same_grid_mk (a b : Footprint) (hpx : a.px = b.px) (hpy : a.py = b.py)
    (hdx : a.px ∣ (a.ox - b.ox)) (hdy : a.py ∣ (a.oy - b.oy)) :
    a.same_grid b = true := by
  unfold Footprint.same_grid
  rw [Int.emod_eq_zero_of_dvd hdx, Int.emod_eq_zero_of_dvd hdy, hpx, hpy]
  simp

theorem grid_layout (S F : Footprint) (hpx : 0 < S.px) (hpy : 0 < S.py)
    (hg : F.same_grid S = true) (hin : F.within S = true) :
    ∃ kx ky : Int,
      F.px = S.px ∧ F.py = S.py ∧
      F.ox = S.ox + kx * S.px ∧ F.oy = S.oy + ky * S.py ∧
      0 ≤ kx ∧ 0 ≤ ky ∧
      kx + (F.rx : Int) ≤ (S.rx : Int) ∧ ky + (F.ry : Int) ≤ (S.ry : Int) := by
  obtain ⟨hpxe, hpye, ⟨kx, hkx⟩, ⟨ky, hky⟩⟩ := same_grid_elim F S hg
  unfold Footprint.within Footprint.xr Footprint.yb at hin
  simp only [Bool.and_eq_true, decide_eq_true_eq] at hin
  obtain ⟨⟨⟨h1, h2⟩, h3⟩, h4⟩ := hin
  refine ⟨kx, ky, hpxe, hpye, hkx, hky, ?_, ?_, ?_, ?_⟩
  · have hx : 0 * S.px ≤ kx * S.px := by rw [zero_mul]; linarith [hkx, h1]
    exact Int.le_of_mul_le_mul_right hx hpx
  · have hx : 0 * S.py ≤ ky * S.py := by rw [zero_mul]; linarith [hky, h3]
    exact Int.le_of_mul_le_mul_right hx hpy
  · rw [hpxe] at h2
    have hx : (kx + (F.rx : Int)) * S.px ≤ (S.rx : Int) * S.px := by
      rw [add_mul]; linarith [hkx, h2]
    exact Int.le_of_mul_le_mul_right hx hpx
  · rw [hpye] at h4
    have hx : (ky + (F.ry : Int)) * S.py ≤ (S.ry : Int) * S.py := by
      rw [add_mul]; linarith [hky, h4]
    exact Int.le_of_mul_le_mul_right hx hpy

theorem share_area_of_layout (S F : Footprint) (kx ky : Int)
    (hpx : 0 < S.px) (hpy : 0 < S.py) (hrx : 0 < F.rx) (hry : 0 < F.ry)
    (hpxe : F.px = S.px) (hpye : F.py = S.py)
    (hkx : F.ox = S.ox + kx * S.px) (hky : F.oy = S.oy + ky * S.py)
    (hkx0 : 0 ≤ kx) (hky0 : 0 ≤ ky)
    (hkxr : kx + (F.rx : Int) ≤ (S.rx : Int)) (hkyr : ky + (F.ry : Int) ≤ (S.ry : Int)) :
    F.share_area S = true ∧ S.share_area F = true := by
  have hrx' : (0 : Int) < (F.rx : Int) := by exact_mod_cast hrx
  have hry' : (0 : Int) < (F.ry : Int) := by exact_mod_cast hry
  have hFxS : F.ox < S.ox + (S.rx : Int) * S.px := by
    have h := mul_lt_mul_of_pos_right (show kx < (S.rx : Int) by omega) hpx
    linarith
  have hSxF : S.ox < F.ox + (F.rx : Int) * F.px := by
    have h0 : 0 ≤ kx * S.px := mul_nonneg hkx0 hpx.le
    have h1 : 0 < (F.rx : Int) * F.px := mul_pos hrx' (by rw [hpxe]; exact hpx)
    linarith
  have hFyS : F.oy < S.oy + (S.ry : Int) * S.py := by
    have h := mul_lt_mul_of_pos_right (show ky < (S.ry : Int) by omega) hpy
    linarith
  have hSyF : S.oy < F.oy + (F.ry : Int) * F.py := by
    have h0 : 0 ≤ ky * S.py := mul_nonneg hky0 hpy.le
    have h1 : 0 < (F.ry : Int) * F.py := mul_pos hry' (by rw [hpye]; exact hpy)
    linarith
  unfold Footprint.share_area Footprint.xr Footprint.yb
  simp only [Bool.and_eq_true, decide_eq_true_eq]
  exact ⟨⟨⟨⟨hFxS, hSxF⟩, hFyS⟩, hSyF⟩, ⟨⟨⟨hSxF, hFxS⟩, hSyF⟩, hFyS⟩⟩

theorem intersection_of_within (S F : Footprint)
    (hpx : 0 < S.px) (hpy : 0 < S.py)
    (hpxe : F.px = S.px) (hpye : F.py = S.py)
    (h1 : S.ox ≤ F.ox) (h2 : F.xr ≤ S.xr) (h3 : S.oy ≤ F.oy) (h4 : F.yb ≤ S.yb) :
    S.intersection F = F := by
  have hxx : min S.xr F.xr = F.xr := min_eq_right h2
  have hoo : max S.ox F.ox = F.ox := max_eq_right h1
  have hyy : min S.yb F.yb = F.yb := min_eq_right h4
  have hoo' : max S.oy F.oy = F.oy := max_eq_right h3
  have hex : F.xr - F.ox = (F.rx : Int) * S.px := by
    unfold Footprint.xr; rw [hpxe]; ring
  have hey : F.yb - F.oy = (F.ry : Int) * S.py := by
    unfold Footprint.yb; rw [hpye]; ring
  unfold Footprint.intersection
  refine Footprint.ext ?_ ?_ ?_ ?_ ?_ ?_
  · exact hoo
  · exact hoo'
  · exact hpxe.symm
  · exact hpye.symm
  · show ((min S.xr F.xr - max S.ox F.ox) / S.px).toNat = F.rx
    rw [hxx, hoo, hex, Int.mul_ediv_cancel _ (ne_of_gt hpx), Int.toNat_natCast]
  · show ((min S.yb F.yb - max S.oy F.oy) / S.py).toNat = F.ry
    rw [hyy, hoo', hey, Int.mul_ediv_cancel _ (ne_of_gt hpy), Int.toNat_natCast]

theorem remap_shape (srcFp dstFp : Footprint) (a : NpArray) (nd : Option Int)
    (dn : Int) (interp : Interpolation) :
    (remap srcFp dstFp a nd dn interp).ry = dstFp.ry ∧
    (remap srcFp dstFp a nd dn interp).rx = dstFp.rx ∧
    (remap srcFp dstFp a nd dn interp).nb = a.nb := by
  unfold remap
  split <;> exact ⟨rfl, rfl, rfl⟩

theorem bsf_of_layout (S F : Footprint) (interp : Interpolation) (kx ky : Int)
    (hpx : 0 < S.px) (hpy : 0 < S.py) (hrx : 0 < F.rx) (hry : 0 < F.ry)
    (hpxe : F.px = S.px) (hpye : F.py = S.py)
    (hkx : F.ox = S.ox + kx * S.px) (hky : F.oy = S.oy + ky * S.py)
    (hkx0 : 0 ≤ kx) (hky0 : 0 ≤ ky)
    (hkxr : kx + (F.rx : Int) ≤ (S.rx : Int)) (hkyr : ky + (F.ry : Int) ≤ (S.ry : Int)) :
    ∃ i0 j0 i1 j1 : Int,
      Footprint.build_sampling_footprint S F interp =
        some { ox := S.ox + i0 * S.px, oy := S.oy + j0 * S.py,
               px := S.px, py := S.py,
               rx := (i1 - i0).toNat, ry := (j1 - j0).toNat } ∧
      0 ≤ i0 ∧ i0 ≤ kx ∧ kx + (F.rx : Int) ≤ i1 ∧ i1 ≤ (S.rx : Int) ∧
      0 ≤ j0 ∧ j0 ≤ ky ∧ ky + (F.ry : Int) ≤ j1 ∧ j1 ≤ (S.ry : Int) := by
  have hshare := (share_area_of_layout S F kx ky hpx hpy hrx hry hpxe hpye hkx hky
    hkx0 hky0 hkxr hkyr).2
  have hr0 : (0 : Int) ≤ (interp.radius : Int) := Int.natCast_nonneg _
  refine ⟨max (kx - (interp.radius : Int)) 0, max (ky - (interp.radius : Int)) 0,
          min (kx + (F.rx : Int) + (interp.radius : Int)) (S.rx : Int),
          min (ky + (F.ry : Int) + (interp.radius : Int)) (S.ry : Int),
          ?_, by omega, by omega, by omega, by omega, by omega, by omega, by omega, by omega⟩
  have e1 : (F.ox - S.ox) / S.px = kx := by
    have h : F.ox - S.ox = kx * S.px := by rw [hkx]; ring
    rw [h, Int.mul_ediv_cancel _ (ne_of_gt hpx)]
  have e2 : (F.xr - S.ox + S.px - 1) / S.px = kx + (F.rx : Int) := by
    have h : F.xr - S.ox + S.px - 1 = (S.px - 1) + (kx + (F.rx : Int)) * S.px := by
      unfold Footprint.xr; rw [hkx, hpxe]; ring
    rw [h, Int.add_mul_ediv_right _ _ (ne_of_gt hpx),
        Int.ediv_eq_zero_of_lt (by omega) (by omega), zero_add]
  have e3 : (F.oy - S.oy) / S.py = ky := by
    have h : F.oy - S.oy = ky * S.py := by rw [hky]; ring
    rw [h, Int.mul_ediv_cancel _ (ne_of_gt hpy)]
  have e4 : (F.yb - S.oy + S.py - 1) / S.py = ky + (F.ry : Int) := by
    have h : F.yb - S.oy + S.py - 1 = (S.py - 1) + (ky + (F.ry : Int)) * S.py := by
      unfold Footprint.yb; rw [hky, hpye]; ring
    rw [h, Int.add_mul_ediv_right _ _ (ne_of_gt hpy),
        Int.ediv_eq_zero_of_lt (by omega) (by omega), zero_add]
  unfold Footprint.build_sampling_footprint
  rw [if_pos hshare]
  simp only [e1, e2, e3, e4]

theorem lastOcc_eq_none (l : List Nat) (b : Nat) (hb : b ∉ l) : lastOcc l b = none := by
  induction l with
  | nil => rfl
  | cons a t ih =>
    simp only [List.mem_cons, not_or] at hb
    obtain ⟨hab, hbt⟩ := hb
    unfold lastOcc
    rw [ih hbt, if_neg (fun h => hab h.symm)]

theorem lastOcc_getD_of_nodup (l : List Nat) (hnd : l.Nodup) (k : Nat) (hk : k < l.length) :
    lastOcc l (l.getD k 0) = some k := by
  induction l generalizing k with
  | nil => simp at hk
  | cons a t ih =>
    rw [List.nodup_cons] at hnd
    obtain ⟨ha, ht⟩ := hnd
    cases k with
    | zero =>
      rw [List.getD_cons_zero]
      unfold lastOcc
      rw [lastOcc_eq_none t a ha, if_pos rfl]
    | succ k' =>
      rw [List.getD_cons_succ]
      unfold lastOcc
      have hk' : k' < t.length := by simpa using hk
      rw [ih ht k' hk']

theorem set_data_preserves_meta (R : RasterState) (a : NpArray) (F : Footprint)
    (band_ids : List Nat) (interp : Interpolation) (mask : Option (Nat → Nat → Bool)) :
    (BackGDALFileRaster.set_data R a F band_ids interp mask).1.fp = R.fp ∧
    (BackGDALFileRaster.set_data R a F band_ids interp mask).1.dtype = R.dtype ∧
    (BackGDALFileRaster.set_data R a F band_ids interp mask).1.nodata = R.nodata := by
  unfold BackGDALFileRaster.set_data
  split <;> exact ⟨rfl, rfl, rfl⟩

theorem get_data_shape (R : RasterState) (fp : Footprint) (band_ids : List Nat)
    (dst_nodata : Int) (interp : Interpolation) :
    (BackGDALFileRaster.get_data R fp band_ids dst_nodata interp).ry = fp.ry ∧
    (BackGDALFileRaster.get_data R fp band_ids dst_nodata interp).rx = fp.rx ∧
    (BackGDALFileRaster.get_data R fp band_ids dst_nodata interp).nb = band_ids.length := by
  cases hb : Footprint.build_sampling_footprint R.fp fp interp with
  | none =>
    simp only [BackGDALFileRaster.get_data, hb]
    exact ⟨rfl, rfl, rfl⟩
  | some sfp =>
    simp only [BackGDALFileRaster.get_data, hb]
    obtain ⟨h1, h2, h3⟩ :=
      remap_shape sfp fp (BackGDALFileRaster.sample R sfp band_ids) R.nodata dst_nodata interp
    exact ⟨h1, h2, by rw [NpArray.astype, h3]; rfl⟩

theorem set_data_cells_in_window (R : RasterState) (a : NpArray) (F : Footprint)
    (band_ids : List Nat) (interp : Interpolation) (kx ky : Int)
    (hpx : 0 < R.fp.px) (hpy : 0 < R.fp.py) (hrx : 0 < F.rx) (hry : 0 < F.ry)
    (hpxe : F.px = R.fp.px) (hpye : F.py = R.fp.py)
    (hkx : F.ox = R.fp.ox + kx * R.fp.px) (hky : F.oy = R.fp.oy + ky * R.fp.py)
    (hkx0 : 0 ≤ kx) (hky0 : 0 ≤ ky)
    (hkxr : kx + (F.rx : Int) ≤ (R.fp.rx : Int)) (hkyr : ky + (F.ry : Int) ≤ (R.fp.ry : Int))
    (hg : F.same_grid R.fp = true)
    (y x b i : Nat) (hy : y < F.ry) (hx : x < F.rx)
    (hlast : lastOcc band_ids b = some i) :
    ((BackGDALFileRaster.set_data R a F band_ids interp none).1).cells
        (ky.toNat + y) (kx.toNat + x) b
      = R.dtype.cast (a.data y x i) := by
  have hsh := (share_area_of_layout R.fp F kx ky hpx hpy hrx hry hpxe hpye hkx hky
    hkx0 hky0 hkxr hkyr).1
  have hw1 : R.fp.ox ≤ F.ox := by linarith [mul_nonneg hkx0 hpx.le, hkx]
  have hw3 : R.fp.oy ≤ F.oy := by linarith [mul_nonneg hky0 hpy.le, hky]
  have hw2 : F.xr ≤ R.fp.xr := by
    have h := mul_le_mul_of_nonneg_right hkxr hpx.le
    rw [add_mul] at h
    unfold Footprint.xr
    rw [hkx, hpxe]
    linarith
  have hw4 : F.yb ≤ R.fp.yb := by
    have h := mul_le_mul_of_nonneg_right hkyr hpy.le
    rw [add_mul] at h
    unfold Footprint.yb
    rw [hky, hpye]
    linarith
  have hint : R.fp.intersection F = F :=
    intersection_of_within R.fp F hpx hpy hpxe hpye hw1 hw2 hw3 hw4
  have hgFF : F.same_grid F = true :=
    same_grid_mk F F rfl rfl (by rw [sub_self]; exact dvd_zero _)
      (by rw [sub_self]; exact dvd_zero _)
  have est : R.fp.spatial_to_raster F.ox F.oy = (kx, ky) := by
    unfold Footprint.spatial_to_raster
    have e1 : (F.ox - R.fp.ox) / R.fp.px = kx := by
      have h : F.ox - R.fp.ox = kx * R.fp.px := by rw [hkx]; ring
      rw [h, Int.mul_ediv_cancel _ (ne_of_gt hpx)]
    have e2 : (F.oy - R.fp.oy) / R.fp.py = ky := by
      have h : F.oy - R.fp.oy = ky * R.fp.py := by rw [hky]; ring
      rw [h, Int.mul_ediv_cancel _ (ne_of_gt hpy)]
    rw [e1, e2]
  unfold BackGDALFileRaster.set_data
  rw [if_pos hsh]
  simp only [hg, hint, est, hlast]
  have hcond : ((kx, ky).2 ≤ ((ky.toNat + y : Nat) : Int) ∧
      ((ky.toNat + y : Nat) : Int) < (kx, ky).2 + (F.ry : Int) ∧
      (kx, ky).1 ≤ ((kx.toNat + x : Nat) : Int) ∧
      ((kx.toNat + x : Nat) : Int) < (kx, ky).1 + (F.rx : Int)) := by
    refine ⟨?_, ?_, ?_, ?_⟩ <;> (push_cast; omega)
  rw [if_pos ⟨hcond.1, hcond.2.1, hcond.2.2.1, hcond.2.2.2, trivial⟩]
  have eidy : (((ky.toNat + y : Nat) : Int) - ky).toNat = y := by push_cast; omega
  have eidx : (((kx.toNat + x : Nat) : Int) - kx).toNat = x := by push_cast; omega
  rw [eidy, eidx]
  simp only [NpArray.astype]
  unfold remap
  rw [if_pos hgFF]
  simp only [sub_self, Int.zero_ediv, add_zero]
  rw [if_pos ⟨by omega, by exact_mod_cast hy, by omega, by exact_mod_cast hx⟩]
  rw [Int.toNat_natCast, Int.toNat_natCast]

theorem get_data_cells_in_window (R : RasterState) (F : Footprint) (band_ids : List Nat)
    (dst_nodata : Int) (interp : Interpolation) (kx ky : Int)
    (hpx : 0 < R.fp.px) (hpy : 0 < R.fp.py) (hrx : 0 < F.rx) (hry : 0 < F.ry)
    (hpxe : F.px = R.fp.px) (hpye : F.py = R.fp.py)
    (hkx : F.ox = R.fp.ox + kx * R.fp.px) (hky : F.oy = R.fp.oy + ky * R.fp.py)
    (hkx0 : 0 ≤ kx) (hky0 : 0 ≤ ky)
    (hkxr : kx + (F.rx : Int) ≤ (R.fp.rx : Int)) (hkyr : ky + (F.ry : Int) ≤ (R.fp.ry : Int))
    (y x k : Nat) (hy : y < F.ry) (hx : x < F.rx) :
    (BackGDALFileRaster.get_data R F band_ids dst_nodata interp).data y x k
      = R.dtype.cast (R.cells (ky.toNat + y) (kx.toNat + x) (band_ids.getD k 0)) := by
  obtain ⟨i0, j0, i1, j1, hbsf, hb1, hb2, hb3, hb4, hb5, hb6, hb7, hb8⟩ :=
    bsf_of_layout R.fp F interp kx ky hpx hpy hrx hry hpxe hpye hkx hky hkx0 hky0 hkxr hkyr
  simp only [BackGDALFileRaster.get_data, hbsf]
  simp only [NpArray.astype]
  apply congrArg
  have hgsf : Footprint.same_grid
      { ox := R.fp.ox + i0 * R.fp.px, oy := R.fp.oy + j0 * R.fp.py,
        px := R.fp.px, py := R.fp.py,
        rx := (i1 - i0).toNat, ry := (j1 - j0).toNat } F = true :=
    same_grid_mk _ F hpxe.symm hpye.symm
      ⟨i0 - kx, by rw [hkx]; ring⟩ ⟨j0 - ky, by rw [hky]; ring⟩
  unfold remap
  rw [if_pos hgsf]
  have edx : (F.ox - (R.fp.ox + i0 * R.fp.px)) / R.fp.px = kx - i0 := by
    have h : F.ox - (R.fp.ox + i0 * R.fp.px) = (kx - i0) * R.fp.px := by rw [hkx]; ring
    rw [h, Int.mul_ediv_cancel _ (ne_of_gt hpx)]
  have edy : (F.oy - (R.fp.oy + j0 * R.fp.py)) / R.fp.py = ky - j0 := by
    have h : F.oy - (R.fp.oy + j0 * R.fp.py) = (ky - j0) * R.fp.py := by rw [hky]; ring
    rw [h, Int.mul_ediv_cancel _ (ne_of_gt hpy)]
  simp only [edx, edy]
  have hcy : (((j1 - j0).toNat : Int)) = j1 - j0 := by omega
  have hcx : (((i1 - i0).toNat : Int)) = i1 - i0 := by omega
  rw [if_pos ⟨by omega, by rw [hcy]; omega, by omega, by rw [hcx]; omega⟩]
  unfold BackGDALFileRaster.sample
  have ertl : R.fp.spatial_to_raster (R.fp.ox + i0 * R.fp.px) (R.fp.oy + j0 * R.fp.py)
      = (i0, j0) := by
    unfold Footprint.spatial_to_raster
    have e1 : (R.fp.ox + i0 * R.fp.px - R.fp.ox) / R.fp.px = i0 := by
      have h : R.fp.ox + i0 * R.fp.px - R.fp.ox = i0 * R.fp.px := by ring
      rw [h, Int.mul_ediv_cancel _ (ne_of_gt hpx)]
    have e2 : (R.fp.oy + j0 * R.fp.py - R.fp.oy) / R.fp.py = j0 := by
      have h : R.fp.oy + j0 * R.fp.py - R.fp.oy = j0 * R.fp.py := by ring
      rw [h, Int.mul_ediv_cancel _ (ne_of_gt hpy)]
    rw [e1, e2]
  simp only [ertl]
  have ey : j0.toNat + ((y : Int) + (ky - j0)).toNat = ky.toNat + y := by omega
  have ex : i0.toNat + ((x : Int) + (kx - i0)).toNat = kx.toNat + x := by omega
  rw [ey, ex]

/-- C1: for a file raster and a footprint on the raster's grid fully
contained in it, writing an array of the raster's dtype via `set_data`
(no mask) and reading back the same footprint with the same band
selection returns an array exactly equal to the one written. -/
theorem set_then_get_roundtrip (R : RasterState) (fp : Footprint) (a : NpArray)
    (band_ids : List Nat) (interp : Interpolation) (dst_nodata : Int)
    (hpx : 0 < R.fp.px) (hpy : 0 < R.fp.py) (hrx : 0 < fp.rx) (hry : 0 < fp.ry)
    (hgrid : fp.same_grid R.fp = true) (hin : fp.within R.fp = true)
    (hary : a.ry = fp.ry) (harx : a.rx = fp.rx) (hanb : a.nb = band_ids.length)
    (hdtype : a.hasDtype R.dtype) (hnodup : band_ids.Nodup) :
    NpArray.ArrEq
      (BackGDALFileRaster.get_data
        (BackGDALFileRaster.set_data R a fp band_ids interp none).1
        fp band_ids dst_nodata interp) a := by
  obtain ⟨kx, ky, hpxe, hpye, hkx, hky, hkx0, hky0, hkxr, hkyr⟩ :=
    grid_layout R.fp fp hpx hpy hgrid hin
  obtain ⟨hfp', hdt', hnd'⟩ := set_data_preserves_meta R a fp band_ids interp none
  obtain ⟨hs1, hs2, hs3⟩ := get_data_shape
    (BackGDALFileRaster.set_data R a fp band_ids interp none).1 fp band_ids dst_nodata interp
  refine ⟨by rw [hs1, hary], by rw [hs2, harx], by rw [hs3, hanb], ?_⟩
  intro y hy x hx k hk
  rw [hs1] at hy
  rw [hs2] at hx
  rw [hs3] at hk
  have hgd := get_data_cells_in_window
    (BackGDALFileRaster.set_data R a fp band_ids interp none).1 fp band_ids dst_nodata interp
    kx ky
    (by rw [hfp']; exact hpx) (by rw [hfp']; exact hpy) hrx hry
    (by rw [hfp']; exact hpxe) (by rw [hfp']; exact hpye)
    (by rw [hfp']; exact hkx) (by rw [hfp']; exact hky)
    hkx0 hky0
    (by rw [hfp']; exact hkxr) (by rw [hfp']; exact hkyr)
    y x k hy hx
  have hset := set_data_cells_in_window R a fp band_ids interp kx ky
    hpx hpy hrx hry hpxe hpye hkx hky hkx0 hky0 hkxr hkyr hgrid
    y x (band_ids.getD k 0) k hy hx
    (lastOcc_getD_of_nodup band_ids hnodup k hk)
  rw [hgd, hdt', hset]
  obtain ⟨hl, hh⟩ := hdtype y (by omega) x (by omega) k (by omega)
  unfold Dtype.cast
  omega

/-- C1 witness: a 1×1 sub-window of a 2×2 raster, written then read back
with bilinear interpolation (the sampling footprint is dilated by the
kernel radius and clipped to the raster). -/
theorem set_then_get_roundtrip_witness :
    (0 < rasterW.fp.px ∧ 0 < rasterW.fp.py ∧ 0 < fpSub.rx ∧ 0 < fpSub.ry ∧
     fpSub.same_grid rasterW.fp = true ∧ fpSub.within rasterW.fp = true ∧
     arrSub.ry = fpSub.ry ∧ arrSub.rx = fpSub.rx ∧ arrSub.nb = [1].length ∧
     arrSub.hasDtype rasterW.dtype ∧ [1].Nodup) ∧
    NpArray.ArrEq
      (BackGDALFileRaster.get_data
        (BackGDALFileRaster.set_data rasterW arrSub fpSub [1] .bilinear none).1
        fpSub [1] 7 .bilinear) arrSub :=
  ⟨⟨by decide, by decide, by decide, by decide, by decide, by decide, by decide, by decide,
    by decide, by decide, by decide⟩,
   set_then_get_roundtrip rasterW fpSub arrSub [1] .bilinear 7 (by decide) (by decide)
     (by decide) (by decide) (by decide) (by decide) (by decide) (by decide) (by decide)
     (by decide) (by decide)⟩

/-- C10: every `get_data` call that returns yields an array of shape
`(fp.ry, fp.rx, len(band_ids))` in the raster's dtype — on the
no-intersection path via `np.full`, on the sampled path via the final
cast of the resampled array back to the raster's dtype. -/
theorem get_data_shape_and_dtype (R : RasterState) (fp : Footprint) (band_ids : List Nat)
    (dst_nodata : Int) (interp : Interpolation)
    (hlohi : R.dtype.lo ≤ R.dtype.hi) :
    (BackGDALFileRaster.get_data R fp band_ids dst_nodata interp).ry = fp.ry ∧
    (BackGDALFileRaster.get_data R fp band_ids dst_nodata interp).rx = fp.rx ∧
    (BackGDALFileRaster.get_data R fp band_ids dst_nodata interp).nb = band_ids.length ∧
    (BackGDALFileRaster.get_data R fp band_ids dst_nodata interp).hasDtype R.dtype := by
  cases hb : Footprint.build_sampling_footprint R.fp fp interp with
  | none =>
    simp only [BackGDALFileRaster.get_data, hb]
    refine ⟨rfl, rfl, rfl, ?_⟩
    intro y hy x hx k hk
    unfold npFull Dtype.cast
    constructor
    · exact le_max_left _ _
    · simp only
      omega
  | some sfp =>
    simp only [BackGDALFileRaster.get_data, hb]
    obtain ⟨h1, h2, h3⟩ :=
      remap_shape sfp fp (BackGDALFileRaster.sample R sfp band_ids) R.nodata dst_nodata interp
    refine ⟨h1, h2, ?_, ?_⟩
    · rw [NpArray.astype, h3]
      rfl
    · intro y hy x hx k hk
      simp only [NpArray.astype, Dtype.cast]
      constructor
      · exact le_max_left _ _
      · omega

/-- C10 witness. -/
theorem get_data_shape_and_dtype_witness :
    (rasterW.dtype.lo ≤ rasterW.dtype.hi) ∧
    ((BackGDALFileRaster.get_data rasterW fpSub [1] 0 .bilinear).ry = fpSub.ry ∧
     (BackGDALFileRaster.get_data rasterW fpSub [1] 0 .bilinear).rx = fpSub.rx ∧
     (BackGDALFileRaster.get_data rasterW fpSub [1] 0 .bilinear).nb = [1].length ∧
     (BackGDALFileRaster.get_data rasterW fpSub [1] 0 .bilinear).hasDtype rasterW.dtype) :=
  ⟨by decide, get_data_shape_and_dtype rasterW fpSub [1] 0 .bilinear (by decide)⟩

theorem list_getD_set_self (l : List Bool) (k : Nat) (b : Bool) (hk : k < l.length) :
    (l.set k b).getD k true = b := by
  induction l generalizing k with
  | nil => simp at hk
  | cons a t ih =>
    cases k with
    | zero => simp
    | succ k' =>
      simp only [List.set_cons_succ, List.getD_cons_succ]
      exact ih k' (by simpa using hk)

theorem countFalse_set_true (l : List Bool) (k : Nat) (hk : l.getD k true = false) :
    countFalse (l.set k true) + 1 = countFalse l := by
  induction l generalizing k with
  | nil => simp [List.getD] at hk
  | cons a t ih =>
    cases k with
    | zero =>
      rw [List.getD_cons_zero] at hk
      subst hk
      simp [countFalse, List.countP_cons]
    | succ k' =>
      rw [List.getD_cons_succ] at hk
      simp only [List.set_cons_succ, countFalse, List.countP_cons]
      have h := ih k' hk
      unfold countFalse at h
      omega

theorem all_true_of_getD (l : List Bool) (h : ∀ j < l.length, l.getD j true = true) :
    ∀ b ∈ l, b = true := by
  intro b hb
  obtain ⟨j, hj, rfl⟩ := List.mem_iff_getElem.1 hb
  rw [← List.getD_eq_getElem l true hj]
  exact h j hj

theorem cycle_mod_surj (n pos j : Nat) (hj : j < n) :
    ∃ k, k < n ∧ (pos + n - 1 - k) % n = j := by
  have hn : 0 < n := by omega
  refine ⟨(pos + n - 1 - j) % n, Nat.mod_lt _ hn, ?_⟩
  have h1 := Nat.mod_add_div (pos + n - 1 - j) n
  have h2 : (pos + n - 1 - j) % n ≤ pos + n - 1 - j := Nat.mod_le _ _
  obtain ⟨Q, hQ⟩ : ∃ Q, n * ((pos + n - 1 - j) / n) = Q := ⟨_, rfl⟩
  rw [hQ] at h1
  have h3 : pos + n - 1 - (pos + n - 1 - j) % n = j + Q := by omega
  rw [h3, ← hQ, Nat.add_mul_mod_self_left]
  exact Nat.mod_eq_of_lt hj

theorem activateLoop_all_true (fuel : Nat) :
    ∀ (flags : List Bool) (pos i : Nat),
      i ≤ flags.length →
      (∀ k < i, flags.getD ((pos + flags.length - 1 - k) % flags.length) true = true) →
      countFalse flags * flags.length + (flags.length - i) + 1 ≤ fuel →
      ∀ b ∈ DataSource.activateLoop fuel flags pos i, b = true := by
  induction fuel with
  | zero =>
    intro flags pos i _ _ hfuel
    generalize countFalse flags * flags.length = A at hfuel
    omega
  | succ fuel ih =>
    intro flags pos i hi hinv hfuel
    by_cases hieq : i = flags.length
    · simp only [DataSource.activateLoop]
      rw [if_pos hieq]
      apply all_true_of_getD
      intro j hj
      obtain ⟨k, hk, hkeq⟩ := cycle_mod_surj flags.length pos j hj
      rw [← hkeq]
      exact hinv k (by omega)
    · have hn : 0 < flags.length := by omega
      simp only [DataSource.activateLoop]
      rw [if_neg hieq]
      by_cases hact : flags.getD (pos % flags.length) true = true
      · rw [if_pos hact]
        refine ih flags ((pos + 1) % flags.length) (i + 1) (by omega) ?_ ?_
        · intro k hk
          cases k with
          | zero =>
            have e : (pos + 1) % flags.length + flags.length - 1 - 0
                = (pos + 1) % flags.length + (flags.length - 1) := by omega
            rw [e, Nat.mod_add_mod]
            have e2 : pos + 1 + (flags.length - 1) = pos + flags.length := by omega
            rw [e2, Nat.add_mod_right]
            exact hact
          | succ k' =>
            have hk' : k' < i := by omega
            have hk2 : k' + 2 ≤ flags.length := by omega
            have e : (pos + 1) % flags.length + flags.length - 1 - (k' + 1)
                = (pos + 1) % flags.length + (flags.length - 2 - k') := by omega
            rw [e, Nat.mod_add_mod]
            have e2 : pos + 1 + (flags.length - 2 - k') = pos + flags.length - 1 - k' := by
              omega
            rw [e2]
            exact hinv k' hk'
        · generalize countFalse flags * flags.length = A at hfuel ⊢
          omega
      · have hact' : flags.getD (pos % flags.length) true = false := by
          cases hgd : flags.getD (pos % flags.length) true
          · rfl
          · exact absurd hgd hact
        rw [if_neg (by rw [hact']; decide)]
        have hlen : (flags.set (pos % flags.length) true).length = flags.length :=
          List.length_set flags _ _
        have hcf := countFalse_set_true flags (pos % flags.length) hact'
        refine ih (flags.set (pos % flags.length) true) ((pos + 1) % flags.length) 1 ?_ ?_ ?_
        · omega
        · intro k hk
          have hk0 : k = 0 := by omega
          subst hk0
          rw [hlen]
          have e : (pos + 1) % flags.length + flags.length - 1 - 0
              = (pos + 1) % flags.length + (flags.length - 1) := by omega
          rw [e, Nat.mod_add_mod]
          have e2 : pos + 1 + (flags.length - 1) = pos + flags.length := by omega
          rw [e2, Nat.add_mod_right]
          exact list_getD_set_self flags (pos % flags.length) true (Nat.mod_lt _ hn)
        · rw [hlen]
          have hmul : countFalse (flags.set (pos % flags.length) true) * flags.length
              + flags.length = countFalse flags * flags.length := by
            rw [← hcf, Nat.add_mul, one_mul]
          generalize countFalse (flags.set (pos % flags.length) true) * flags.length = A
            at hmul ⊢
          generalize countFalse flags * flags.length = B at hmul hfuel ⊢
          omega

/-- C6: `activate_all` fails with `TooMany` when the pooled sources
outnumber `max_active`; otherwise the cycling loop terminates with every
pooled source active. -/
theorem activate_all_contract (max_active : Nat) (flags : List Bool) :
    (max_active < flags.length →
      DataSource.activate_all max_active flags = .error BuzzError.TooMany) ∧
    (flags.length ≤ max_active →
      ∃ flags', DataSource.activate_all max_active flags = .ok flags' ∧
        ∀ b ∈ flags', b = true) := by
  constructor
  · intro h
    unfold DataSource.activate_all
    rw [if_pos h]
  · intro h
    unfold DataSource.activate_all
    rw [if_neg (by omega)]
    refine ⟨_, rfl, ?_⟩
    apply activateLoop_all_true
    · exact Nat.zero_le _
    · intro k hk
      exact absurd hk (by omega)
    · have hcf : countFalse flags ≤ flags.length := List.countP_le_length _
      have h1 : countFalse flags * flags.length ≤ flags.length * flags.length :=
        Nat.mul_le_mul_right _ hcf
      have h2 : (flags.length + 1) * (flags.length + 1)
          = flags.length * flags.length + flags.length + flags.length + 1 := by ring
      generalize countFalse flags * flags.length = A at h1 ⊢
      generalize flags.length * flags.length = B at h1 h2 ⊢
      omega

/-- C6 witness. -/
theorem activate_all_contract_witness :
    (1 < [false, true].length ∧
      DataSource.activate_all 1 [false, true] = .error BuzzError.TooMany) ∧
    ([false, true].length ≤ 3 ∧
      ∃ flags', DataSource.activate_all 3 [false, true] = .ok flags' ∧
        ∀ b ∈ flags', b = true) :=
  ⟨⟨by decide, (activate_all_contract 1 [false, true]).1 (by decide)⟩,
   ⟨by decide, (activate_all_contract 3 [false, true]).2 (by decide)⟩⟩

/-- C8 witness: the empty `computation_tiles` array — covering no pixel at
all — is accepted alongside a valid cache tiling. -/
theorem computation_tiles_branch_checks_cache_tiles_witness :
    (is_tiling_covering_fp [tileL, tileR] fpW false false = true) ∧
    DataSource.recipeTilings fpW (.arr [tileL, tileR]) (some (.arr [])) =
      .ok ([tileL, tileR], []) :=
  ⟨by decide,
   computation_tiles_branch_checks_cache_tiles fpW [tileL, tileR] [] (by decide)⟩
